import Mathlib

/-!
Adafruit HDC1000 driver: embedding and verified properties.

The driver of `Adafruit_HDC1000.cpp` is embedded as state-passing functions over
an abstract platform (`Hardware`): the I2C device handle and the Arduino `delay`.
Every bus operation and every delay is also appended to an event log, so that
statements about what a call puts on the bus, and for how long it waits, are
statements about that log.

Machine integers are naturals reduced modulo their width.  `float` is IEEE-754
binary32: a value is a rational number (or non-finite), and every arithmetic
operation rounds its exact result to nearest, ties to even.
-/

namespace HDC1000

/-! ## Register map and configuration bits (`Adafruit_HDC1000.h`) -/

def HDC1000_I2CADDR : Nat := 0x40
def HDC1000_TEMP : Nat := 0x00
def HDC1000_HUMID : Nat := 0x01
def HDC1000_CONFIG : Nat := 0x02
def HDC1000_CONFIG_RST : Nat := 1 <<< 15
def HDC1000_CONFIG_HEAT : Nat := 1 <<< 13
def HDC1000_CONFIG_MODE : Nat := 1 <<< 12
def HDC1000_CONFIG_BATT : Nat := 1 <<< 11
def HDC1000_CONFIG_TRES_14 : Nat := 0
def HDC1000_CONFIG_TRES_11 : Nat := 1 <<< 10
def HDC1000_CONFIG_HRES_14 : Nat := 0
def HDC1000_CONFIG_HRES_11 : Nat := 1 <<< 8
def HDC1000_CONFIG_HRES_8 : Nat := 1 <<< 9
def HDC1000_MANUFID : Nat := 0xFE
def HDC1000_DEVICEID : Nat := 0xFF

/-! ## Single-precision arithmetic -/

/-- Nearest integer to a rational, a tie going to the even neighbour. -/
def roundHalfEven (q : ℚ) : ℤ :=
  let f := ⌊q⌋
  let r := q - f
  if r < 1 / 2 then f
  else if 1 / 2 < r then f + 1
  else if f % 2 = 0 then f else f + 1

/-- Exponent of the binary32 quantum used for a nonzero `q`: 24 significant bits
below the leading bit of `q`, and never below the subnormal quantum `2^-149`. -/
def quantumExp (q : ℚ) : ℤ := max (Int.log 2 |q| - 23) (-149)

/-- Rounding of `q` to the binary32 grid with an unbounded exponent range above. -/
def roundToGrid (q : ℚ) : ℚ :=
  if q = 0 then 0 else (roundHalfEven (q / 2 ^ quantumExp q) : ℚ) * 2 ^ quantumExp q

/-- A `float`: a finite value, or `none` for a non-finite one (infinity, NaN). -/
abbrev F32 := Option ℚ

namespace F32

/-- Rounding of an exact result to `float`; a magnitude that rounds to `2^128`
or more overflows to infinity. -/
def round (q : ℚ) : F32 :=
  let r := roundToGrid q
  if |r| < 2 ^ 128 then some r else none

/-- Conversion of an unsigned integer to `float`. -/
def ofNat (n : Nat) : F32 := round (n : ℚ)

def div (a b : F32) : F32 :=
  match a, b with
  | some x, some y => if y = 0 then none else round (x / y)
  | _, _ => none

def mul (a b : F32) : F32 :=
  match a, b with
  | some x, some y => round (x * y)
  | _, _ => none

def sub (a b : F32) : F32 :=
  match a, b with
  | some x, some y => round (x - y)
  | _, _ => none

end F32

/-! ## Platform: I2C device handle, `delay`, and the event log -/

/-- What the driver asks of the platform, in program order. -/
inductive Event where
  | begin (addr : Nat)
  | write (bytes : List Nat)
  | read (len : Nat)
  | delay (ms : Nat)
deriving DecidableEq, Repr

/-- The platform the driver runs on, over a simulated state `σ`:
`Adafruit_I2CDevice` (`begin`, `write`, `read`) and Arduino `delay`.
`begin addr` opens the device at `addr` and reports whether it answered;
`write bytes` sends one write transaction; `read len` returns the bytes the
device handle leaves in the first `len` cells of the caller's buffer. -/
structure Hardware (σ : Type) where
  begin : Nat → σ → Bool × σ
  write : List Nat → σ → Bool × σ
  read : Nat → σ → List Nat × σ
  delay : Nat → σ → σ

/-- Simulated platform state together with the log of everything requested so far. -/
structure World (σ : Type) where
  bus : σ
  log : List Event

variable {σ : Type}

/-- The call `i2c_dev->begin()` on a handle for address `addr`. -/
def i2cBegin (hw : Hardware σ) (addr : Nat) (w : World σ) : Bool × World σ :=
  let r := hw.begin addr w.bus
  (r.1, { bus := r.2, log := w.log ++ [Event.begin addr] })

/-- The call `i2c_dev->write(buff, len)`; the driver ignores its result. -/
def i2cWrite (hw : Hardware σ) (bytes : List Nat) (w : World σ) : World σ :=
  { bus := (hw.write bytes w.bus).2, log := w.log ++ [Event.write bytes] }

/-- The call `i2c_dev->read(buff, len)`: the buffer contents afterwards. -/
def i2cRead (hw : Hardware σ) (len : Nat) (w : World σ) : List Nat × World σ :=
  let r := hw.read len w.bus
  (r.1, { bus := r.2, log := w.log ++ [Event.read len] })

/-- Arduino `delay(ms)`. -/
def delay (hw : Hardware σ) (ms : Nat) (w : World σ) : World σ :=
  { bus := hw.delay ms w.bus, log := w.log ++ [Event.delay ms] }

/-- Cell `i` of a `uint8_t` buffer.  A device handle that fills the buffer returns
`len` cells, so the default is only met by a response shorter than was asked for. -/
def byteAt (buff : List Nat) (i : Nat) : Nat := buff.getD i 0 % 256

/-- Modelled from the spec: `Adafruit_BusIO_Register::write` belongs to the BusIO
library, which is not part of the sources.  For a register of the given address
and a width of 2 bytes, MSBFIRST, it sends one write transaction made of the
register address, then the high byte, then the low byte of the value. -/
def busRegisterWrite16 (hw : Hardware σ) (reg value : Nat) (w : World σ) : World σ :=
  i2cWrite hw [reg % 256, value % 65536 / 256, value % 256] w

/-! ## The driver (`Adafruit_HDC1000.cpp`) -/

/-- The `uint16_t` argument is written through a 2-byte MSB-first register object
at address `0x02`, then the driver waits 15 ms. -/
def writeConfig (hw : Hardware σ) (config : Nat) (w : World σ) : World σ :=
  let w := busRegisterWrite16 hw 0x02 (config % 65536) w
  delay hw 15 w

def read16 (hw : Hardware σ) (addr delayms : Nat) (w : World σ) : Nat × World σ :=
  let w := i2cWrite hw [addr % 256] w
  let w := delay hw (delayms % 256) w
  let r := i2cRead hw 2 w
  let val := byteAt r.1 0
  let val := (val <<< 8) % 65536
  let val := val ||| byteAt r.1 1
  (val, r.2)

def read32 (hw : Hardware σ) (addr delayms : Nat) (w : World σ) : Nat × World σ :=
  let w := i2cWrite hw [addr % 256] w
  let w := delay hw (delayms % 256) w
  let r := i2cRead hw 4 w
  let val := byteAt r.1 0
  let val := (val <<< 8) % 4294967296
  let val := val ||| byteAt r.1 1
  let val := (val <<< 8) % 4294967296
  let val := val ||| byteAt r.1 2
  let val := (val <<< 8) % 4294967296
  let val := val ||| byteAt r.1 3
  (val, r.2)

def reset (hw : Hardware σ) (w : World σ) : World σ :=
  let config := (HDC1000_CONFIG_RST ||| HDC1000_CONFIG_MODE |||
    HDC1000_CONFIG_TRES_14 ||| HDC1000_CONFIG_HRES_14) % 65536
  writeConfig hw config w

/-- Replacing the device handle (`delete` of the old one, `new` for `addr`) leaves
no trace on the bus; the first bus operation is the `begin()` of the new handle. -/
def begin (hw : Hardware σ) (addr : Nat) (w : World σ) : Bool × World σ :=
  let o := i2cBegin hw (addr % 256) w
  if !o.1 then (false, o.2)
  else
    let w := reset hw o.2
    let m := read16 hw HDC1000_MANUFID 0 w
    if m.1 != 0x5449 then (false, m.2)
    else
      let d := read16 hw HDC1000_DEVICEID 0 m.2
      if d.1 != 0x1000 && d.1 != 0x1050 then (false, d.2)
      else (true, d.2)

def readTemperature (hw : Hardware σ) (w : World σ) : F32 × World σ :=
  let r := read32 hw HDC1000_TEMP 20 w
  let temp := F32.ofNat (r.1 >>> 16)
  let temp := F32.div temp (F32.ofNat 65536)
  let temp := F32.mul temp (F32.ofNat 165)
  let temp := F32.sub temp (F32.ofNat 40)
  (temp, r.2)

def readHumidity (hw : Hardware σ) (w : World σ) : F32 × World σ :=
  let r := read32 hw HDC1000_TEMP 20 w
  let hum := F32.ofNat (r.1 &&& 0xFFFF)
  let hum := F32.div hum (F32.ofNat 65536)
  let hum := F32.mul hum (F32.ofNat 100)
  (hum, r.2)

/-- The loop `for (int i = 0; i < 1000; i++) { read32(HDC1000_TEMP, 20); delay(1); }`
of `drySensor`, with `n` the number of iterations still to run. -/
def drySensorLoop (hw : Hardware σ) : Nat → World σ → World σ
  | 0, w => w
  | n + 1, w => drySensorLoop hw n (delay hw 1 (read32 hw HDC1000_TEMP 20 w).2)

def drySensor (hw : Hardware σ) (w : World σ) : World σ :=
  let o := read16 hw 0x2 0 w
  let newConfig := (HDC1000_CONFIG_RST ||| HDC1000_CONFIG_HEAT ||| HDC1000_CONFIG_MODE |||
    HDC1000_CONFIG_TRES_14 ||| HDC1000_CONFIG_HRES_14) % 65536
  let w := writeConfig hw newConfig o.2
  let w := delay hw 15 w
  let w := drySensorLoop hw 1000 w
  let origConfig := (o.1 ||| HDC1000_CONFIG_RST) % 65536
  let w := writeConfig hw origConfig w
  delay hw 15 w

/-! ## A mock transport: a register file behind an address pointer -/

/-- State of the mock device: the register selected by the last write, and the
bytes last stored in each register. -/
structure MockState where
  pointer : Nat
  regs : Nat → List Nat

/-- Mock register-file device.  A write transaction selects the register named by
its first byte and, when more bytes follow, stores them in that register; a read
returns the first `len` bytes stored in the selected register. -/
def mockHardware : Hardware MockState where
  begin := fun _ s => (true, s)
  write := fun bytes s =>
    match bytes with
    | [] => (false, s)
    | a :: [] => (true, { s with pointer := a })
    | a :: data => (true, { pointer := a, regs := fun r => if r = a then data else s.regs r })
  read := fun len s => ((s.regs s.pointer).take len, s)
  delay := fun _ s => s

/-- Mock device with every register empty. -/
def mockInit : World MockState := { bus := { pointer := 0, regs := fun _ => [] }, log := [] }

/-- Mock device whose combined register `0x00` holds the given four bytes. -/
def mockWith (b0 b1 b2 b3 : Nat) : World MockState :=
  { bus := { pointer := 0, regs := fun r => if r = 0 then [b0, b1, b2, b3] else [] }, log := [] }

/-! ## Observations on the event log -/

/-- The configuration word carried by an event: a write transaction of the
register address `0x02` followed by a high and a low byte. -/
def configWord : Event → Option Nat
  | Event.write [2, hi, lo] => some (hi * 256 + lo)
  | _ => none

/-- The configuration words written to register `0x02`, in order. -/
def configWrites (es : List Event) : List Nat := es.filterMap configWord

/-- Number of read transactions of the given length. -/
def readCount (len : Nat) (es : List Event) : Nat := es.count (Event.read len)

/-- The bytes of every write transaction in the log, in order. -/
def writesOf (es : List Event) : List (List Nat) :=
  es.filterMap fun e => match e with
    | Event.write bytes => some bytes
    | _ => none

/-- Milliseconds requested by an event. -/
def delayMs : Event → Nat
  | Event.delay ms => ms
  | _ => 0

/-- Total of the millisecond arguments of all delays in the log. -/
def delayTotal (es : List Event) : Nat := (es.map delayMs).sum

/-- The buffer that `read16` (`len = 2`) or `read32` (`len = 4`) assembles: what the
device hands back once the address byte has been written and the delay has passed. -/
def response (hw : Hardware σ) (len addr delayms : Nat) (w : World σ) : List Nat :=
  (i2cRead hw len (delay hw (delayms % 256) (i2cWrite hw [addr % 256] w))).1

/-- Whether the transport opens during `begin`. -/
def opensOk (hw : Hardware σ) (addr : Nat) (w : World σ) : Bool :=
  (i2cBegin hw (addr % 256) w).1

/-- The 16-bit read of the manufacturer-ID register, taken after the transport
has been opened and `reset` has run. -/
def manufacturerIdRead (hw : Hardware σ) (addr : Nat) (w : World σ) : Nat × World σ :=
  read16 hw HDC1000_MANUFID 0 (reset hw (i2cBegin hw (addr % 256) w).2)

/-- The 16-bit read of the device-ID register that follows the manufacturer-ID read. -/
def deviceIdRead (hw : Hardware σ) (addr : Nat) (w : World σ) : Nat × World σ :=
  read16 hw HDC1000_DEVICEID 0 (manufacturerIdRead hw addr w).2

/-- The events one pass of the `drySensor` loop adds to the log. -/
def dryPassEvents : List Event :=
  [Event.write [HDC1000_TEMP], Event.delay 20, Event.read 4, Event.delay 1]

/-- A decimal `r` is the two-decimal rounding of `t`: they differ by at most half
a unit of the second decimal. -/
def roundsToTwoDecimals (t r : ℚ) : Prop := |t - r| ≤ 1 / 200

/-- Mock device that identifies itself as a sensor with the given device ID. -/
def mockSensor (deviceId : Nat) : World MockState :=
  { bus := { pointer := 0,
             regs := fun r => if r = 0xFE then [0x54, 0x49]
                              else if r = 0xFF then [deviceId / 256, deviceId % 256] else [] },
    log := [] }

/-! ## Exactness of the single-precision steps -/

theorem roundHalfEven_intCast (z : ℤ) : roundHalfEven (z : ℚ) = z := by
  simp [roundHalfEven]

/-- The quantum chosen for `n / 2^j` with `|n| < 2^24` is no coarser than `2^-j`. -/
theorem quantumExp_le (n : ℤ) (j : ℕ) (hj : j ≤ 149) (hn : |n| < 2 ^ 24) (h0 : n ≠ 0) :
    quantumExp ((n : ℚ) / 2 ^ j) ≤ -(j : ℤ) := by
  have hpos : (0 : ℚ) < |(n : ℚ) / 2 ^ j| := by
    apply abs_pos.mpr
    exact div_ne_zero (by exact_mod_cast h0) (by positivity)
  have hlt : |(n : ℚ) / 2 ^ j| < ((2 : ℕ) : ℚ) ^ ((24 : ℤ) - j) := by
    rw [abs_div, abs_of_pos (by positivity : (0 : ℚ) < 2 ^ j), zpow_sub₀ (by norm_num)]
    have h1 : |(n : ℚ)| < 2 ^ 24 := by exact_mod_cast hn
    have h2 : (0 : ℚ) < 2 ^ j := by positivity
    simp only [Nat.cast_ofNat, zpow_natCast]
    have h3 : ((2 : ℚ) ^ (24 : ℤ)) = 2 ^ 24 := by norm_num
    rw [h3]
    exact div_lt_div_of_pos_right h1 h2
  have hlog := (Int.lt_zpow_iff_log_lt (by norm_num : 1 < 2) hpos).mp hlt
  unfold quantumExp
  apply max_le
  · omega
  · omega

/-- A value `n / 2^j` with a 24-bit numerator lies on the binary32 grid. -/
theorem roundToGrid_exact (n : ℤ) (j : ℕ) (hj : j ≤ 149) (hn : |n| < 2 ^ 24) :
    roundToGrid ((n : ℚ) / 2 ^ j) = (n : ℚ) / 2 ^ j := by
  by_cases h0 : n = 0
  · subst h0; simp [roundToGrid]
  · have hk := quantumExp_le n j hj hn h0
    have hq : (n : ℚ) / 2 ^ j ≠ 0 := div_ne_zero (by exact_mod_cast h0) (by positivity)
    unfold roundToGrid
    rw [if_neg hq]
    generalize quantumExp ((n : ℚ) / 2 ^ j) = k at hk
    obtain ⟨m, hm⟩ : ∃ m : ℕ, k = -((j : ℤ) + m) := ⟨(-(j : ℤ) - k).toNat, by omega⟩
    subst hm
    have hscale : (n : ℚ) / 2 ^ j / 2 ^ (-((j : ℤ) + m)) = ((n * 2 ^ m : ℤ) : ℚ) := by
      rw [zpow_neg, zpow_add₀ (by norm_num)]
      push_cast
      field_simp
      ring
    rw [hscale, roundHalfEven_intCast, zpow_neg, zpow_add₀ (by norm_num)]
    push_cast
    field_simp
    ring

theorem F32.round_exact (n : ℤ) (j : ℕ) (hj : j ≤ 149) (hn : |n| < 2 ^ 24) :
    F32.round ((n : ℚ) / 2 ^ j) = some ((n : ℚ) / 2 ^ j) := by
  unfold F32.round
  simp only [roundToGrid_exact n j hj hn]
  rw [if_pos]
  have h1 : |(n : ℚ)| < 2 ^ 24 := by exact_mod_cast hn
  have h2 : (1 : ℚ) ≤ 2 ^ j := one_le_pow₀ (by norm_num)
  rw [abs_div, abs_of_pos (by positivity : (0 : ℚ) < 2 ^ j)]
  calc |(n : ℚ)| / 2 ^ j ≤ |(n : ℚ)| := div_le_self (abs_nonneg _) h2
    _ < 2 ^ 24 := h1
    _ < 2 ^ 128 := by norm_num

theorem F32.ofNat_exact (n : ℕ) (hn : n < 2 ^ 24) : F32.ofNat n = some (n : ℚ) := by
  have h := F32.round_exact (n : ℤ) 0 (by norm_num) (by rw [abs_of_nonneg (by positivity)]; exact_mod_cast hn)
  simpa [F32.ofNat] using h

/-- The four `float` statements of `readTemperature` on a 16-bit raw value are exact. -/
theorem temperatureSteps_exact (u : ℕ) (hu : u < 65536) :
    F32.sub (F32.mul (F32.div (F32.ofNat u) (F32.ofNat 65536)) (F32.ofNat 165)) (F32.ofNat 40)
      = some ((u : ℚ) / 65536 * 165 - 40) := by
  rw [F32.ofNat_exact u (by omega), F32.ofNat_exact 65536 (by norm_num),
    F32.ofNat_exact 165 (by norm_num), F32.ofNat_exact 40 (by norm_num)]
  have hd : F32.div (some (u : ℚ)) (some ((65536 : ℕ) : ℚ)) = some ((u : ℚ) / 65536) := by
    have h := F32.round_exact (u : ℤ) 16 (by norm_num)
      (by rw [abs_of_nonneg (by positivity)]; omega)
    simp only [F32.div]
    rw [if_neg (by norm_num)]
    norm_num at h ⊢
    exact h
  have hm : F32.mul (some ((u : ℚ) / 65536)) (some ((165 : ℕ) : ℚ)) = some ((u : ℚ) / 65536 * 165) := by
    have h := F32.round_exact ((u : ℤ) * 165) 16 (by norm_num)
      (by rw [abs_of_nonneg (by positivity)]; omega)
    simp only [F32.mul]
    have e : (u : ℚ) / 65536 * ((165 : ℕ) : ℚ) = (((u : ℤ) * 165 : ℤ) : ℚ) / 2 ^ 16 := by
      push_cast; ring
    rw [e, h]
    congr 1
    push_cast; ring
  have hs : F32.sub (some ((u : ℚ) / 65536 * 165)) (some ((40 : ℕ) : ℚ))
      = some ((u : ℚ) / 65536 * 165 - 40) := by
    have h := F32.round_exact ((u : ℤ) * 165 - 2621440) 16 (by norm_num)
      (by rw [abs_lt]; constructor <;> omega)
    simp only [F32.sub]
    have e : (u : ℚ) / 65536 * 165 - ((40 : ℕ) : ℚ) = (((u : ℤ) * 165 - 2621440 : ℤ) : ℚ) / 2 ^ 16 := by
      push_cast; ring
    rw [e, h]
    congr 1
    push_cast; ring
  rw [hd, hm, hs]

/-- The three `float` statements of `readHumidity` on a 16-bit raw value are exact. -/
theorem humiditySteps_exact (u : ℕ) (hu : u < 65536) :
    F32.mul (F32.div (F32.ofNat u) (F32.ofNat 65536)) (F32.ofNat 100)
      = some ((u : ℚ) / 65536 * 100) := by
  rw [F32.ofNat_exact u (by omega), F32.ofNat_exact 65536 (by norm_num),
    F32.ofNat_exact 100 (by norm_num)]
  have hd : F32.div (some (u : ℚ)) (some ((65536 : ℕ) : ℚ)) = some ((u : ℚ) / 65536) := by
    have h := F32.round_exact (u : ℤ) 16 (by norm_num)
      (by rw [abs_of_nonneg (by positivity)]; omega)
    simp only [F32.div]
    rw [if_neg (by norm_num)]
    norm_num at h ⊢
    exact h
  have hm : F32.mul (some ((u : ℚ) / 65536)) (some ((100 : ℕ) : ℚ)) = some ((u : ℚ) / 65536 * 100) := by
    have h := F32.round_exact ((u : ℤ) * 100) 16 (by norm_num)
      (by rw [abs_of_nonneg (by positivity)]; omega)
    simp only [F32.mul]
    have e : (u : ℚ) / 65536 * ((100 : ℕ) : ℚ) = (((u : ℤ) * 100 : ℤ) : ℚ) / 2 ^ 16 := by
      push_cast; ring
    rw [e, h]
    congr 1
    push_cast; ring
  rw [hd, hm]

/-! ## Byte assembly -/

theorem byteAt_lt (buff : List Nat) (i : Nat) : byteAt buff i < 256 :=
  Nat.mod_lt _ (by norm_num)

theorem shl8_or (a b : Nat) (hb : b < 256) : (a <<< 8) ||| b = a * 256 + b := by
  rw [Nat.shiftLeft_eq]
  have h := Nat.mul_add_lt_is_or (i := 8) (by simpa using hb) a
  rw [← show 2 ^ 8 * a = a * 2 ^ 8 from Nat.mul_comm _ _, ← h]
  norm_num
  ring

/-- Assembly of two buffer cells by `val = b0; val <<= 8; val |= b1` in 16 bits. -/
theorem assemble16 (b0 b1 : Nat) (h0 : b0 < 256) (h1 : b1 < 256) :
    ((b0 <<< 8) % 65536) ||| b1 = b0 * 256 + b1 := by
  have e : (b0 <<< 8) % 65536 = b0 <<< 8 := by
    rw [Nat.shiftLeft_eq]; apply Nat.mod_eq_of_lt; omega
  rw [e, shl8_or _ _ h1]

/-- Assembly of four buffer cells by three shift-and-or steps in 32 bits. -/
theorem assemble32 (b0 b1 b2 b3 : Nat) (h0 : b0 < 256) (h1 : b1 < 256) (h2 : b2 < 256)
    (h3 : b3 < 256) :
    ((((((b0 <<< 8) % 4294967296) ||| b1) <<< 8) % 4294967296 ||| b2) <<< 8) % 4294967296 ||| b3
      = b0 * 2 ^ 24 + b1 * 2 ^ 16 + b2 * 2 ^ 8 + b3 := by
  have e0 : (b0 <<< 8) % 4294967296 = b0 <<< 8 := by
    rw [Nat.shiftLeft_eq]; apply Nat.mod_eq_of_lt; omega
  rw [e0, shl8_or _ _ h1]
  have e1 : ((b0 * 256 + b1) <<< 8) % 4294967296 = (b0 * 256 + b1) <<< 8 := by
    rw [Nat.shiftLeft_eq]; apply Nat.mod_eq_of_lt; omega
  rw [e1, shl8_or _ _ h2]
  have e2 : (((b0 * 256 + b1) * 256 + b2) <<< 8) % 4294967296 = ((b0 * 256 + b1) * 256 + b2) <<< 8 := by
    rw [Nat.shiftLeft_eq]; apply Nat.mod_eq_of_lt; omega
  rw [e2, shl8_or _ _ h3]
  ring

/-! ## What each driver function returns and logs -/

theorem read16_val (hw : Hardware σ) (addr delayms : Nat) (w : World σ) :
    (read16 hw addr delayms w).1
      = byteAt (response hw 2 addr delayms w) 0 * 256 + byteAt (response hw 2 addr delayms w) 1 := by
  simp only [read16, response]
  exact assemble16 _ _ (byteAt_lt _ _) (byteAt_lt _ _)

theorem read32_val (hw : Hardware σ) (addr delayms : Nat) (w : World σ) :
    (read32 hw addr delayms w).1
      = byteAt (response hw 4 addr delayms w) 0 * 2 ^ 24
        + byteAt (response hw 4 addr delayms w) 1 * 2 ^ 16
        + byteAt (response hw 4 addr delayms w) 2 * 2 ^ 8
        + byteAt (response hw 4 addr delayms w) 3 := by
  simp only [read32, response]
  exact assemble32 _ _ _ _ (byteAt_lt _ _) (byteAt_lt _ _) (byteAt_lt _ _) (byteAt_lt _ _)

theorem read32_lt (hw : Hardware σ) (addr delayms : Nat) (w : World σ) :
    (read32 hw addr delayms w).1 < 2 ^ 32 := by
  rw [read32_val]
  have h0 := byteAt_lt (response hw 4 addr delayms w) 0
  have h1 := byteAt_lt (response hw 4 addr delayms w) 1
  have h2 := byteAt_lt (response hw 4 addr delayms w) 2
  have h3 := byteAt_lt (response hw 4 addr delayms w) 3
  omega

theorem read16_log (hw : Hardware σ) (addr delayms : Nat) (w : World σ) :
    (read16 hw addr delayms w).2.log
      = w.log ++ [Event.write [addr % 256], Event.delay (delayms % 256), Event.read 2] := by
  simp [read16, i2cWrite, delay, i2cRead]

theorem read32_log (hw : Hardware σ) (addr delayms : Nat) (w : World σ) :
    (read32 hw addr delayms w).2.log
      = w.log ++ [Event.write [addr % 256], Event.delay (delayms % 256), Event.read 4] := by
  simp [read32, i2cWrite, delay, i2cRead]

theorem writeConfig_log (hw : Hardware σ) (config : Nat) (w : World σ) :
    (writeConfig hw config w).log
      = w.log ++ [Event.write [2, config % 65536 / 256, config % 256], Event.delay 15] := by
  have e : config % 65536 % 256 = config % 256 := by omega
  simp [writeConfig, busRegisterWrite16, i2cWrite, delay, e]

theorem delay_log (hw : Hardware σ) (ms : Nat) (w : World σ) :
    (delay hw ms w).log = w.log ++ [Event.delay ms] := rfl

theorem drySensorLoop_log (hw : Hardware σ) (n : Nat) (w : World σ) :
    (drySensorLoop hw n w).log = w.log ++ (List.replicate n dryPassEvents).flatten := by
  induction n generalizing w with
  | zero => simp [drySensorLoop]
  | succ n ih =>
    rw [drySensorLoop, ih, delay_log, read32_log, List.replicate_succ, List.flatten_cons]
    simp [dryPassEvents, HDC1000_TEMP]

theorem readTemperature_val (hw : Hardware σ) (w : World σ) :
    (readTemperature hw w).1
      = some ((((read32 hw HDC1000_TEMP 20 w).1 >>> 16 : ℕ) : ℚ) / 65536 * 165 - 40) := by
  have hlt := read32_lt hw HDC1000_TEMP 20 w
  have hu : (read32 hw HDC1000_TEMP 20 w).1 >>> 16 < 65536 := by
    rw [Nat.shiftRight_eq_div_pow]; omega
  simp only [readTemperature]
  exact temperatureSteps_exact _ hu

theorem readHumidity_val (hw : Hardware σ) (w : World σ) :
    (readHumidity hw w).1
      = some ((((read32 hw HDC1000_TEMP 20 w).1 &&& 0xFFFF : ℕ) : ℚ) / 65536 * 100) := by
  have hu : (read32 hw HDC1000_TEMP 20 w).1 &&& 0xFFFF < 65536 := by
    have := Nat.and_pow_two_sub_one_eq_mod (read32 hw HDC1000_TEMP 20 w).1 16
    norm_num at this
    rw [this]; omega
  simp only [readHumidity]
  exact humiditySteps_exact _ hu

theorem read32_mockWith (b0 b1 b2 b3 : Nat) :
    (read32 mockHardware HDC1000_TEMP 20 (mockWith b0 b1 b2 b3)).1
      = b0 % 256 * 2 ^ 24 + b1 % 256 * 2 ^ 16 + b2 % 256 * 2 ^ 8 + b3 % 256 := by
  rw [read32_val]
  simp [response, i2cRead, i2cWrite, delay, mockHardware, mockWith, byteAt, HDC1000_TEMP]

/-! ## Observations over the loop of `drySensor` -/

theorem configWrites_append (a b : List Event) :
    configWrites (a ++ b) = configWrites a ++ configWrites b := by
  simp [configWrites]

theorem configWrites_dryPasses (n : Nat) :
    configWrites (List.replicate n dryPassEvents).flatten = [] := by
  induction n with
  | zero => rfl
  | succ n ih =>
    rw [List.replicate_succ, List.flatten_cons, configWrites_append, ih]
    rfl

theorem readCount_append (len : Nat) (a b : List Event) :
    readCount len (a ++ b) = readCount len a + readCount len b := by
  simp [readCount]

theorem readCount_dryPasses (n : Nat) :
    readCount 4 (List.replicate n dryPassEvents).flatten = n := by
  induction n with
  | zero => rfl
  | succ n ih =>
    rw [List.replicate_succ, List.flatten_cons, readCount_append, ih]
    have : readCount 4 dryPassEvents = 1 := by decide
    omega

theorem delayTotal_append (a b : List Event) :
    delayTotal (a ++ b) = delayTotal a + delayTotal b := by
  simp [delayTotal]

theorem delayTotal_dryPasses (n : Nat) :
    delayTotal (List.replicate n dryPassEvents).flatten = n * 21 := by
  induction n with
  | zero => rfl
  | succ n ih =>
    rw [List.replicate_succ, List.flatten_cons, delayTotal_append, ih]
    have : delayTotal dryPassEvents = 21 := by decide
    omega

theorem read16_lt (hw : Hardware σ) (addr delayms : Nat) (w : World σ) :
    (read16 hw addr delayms w).1 < 65536 := by
  rw [read16_val]
  have h0 := byteAt_lt (response hw 2 addr delayms w) 0
  have h1 := byteAt_lt (response hw 2 addr delayms w) 1
  omega

theorem or_rst_lt (c : Nat) (hc : c < 65536) : c ||| HDC1000_CONFIG_RST < 65536 :=
  Nat.or_lt_two_pow (n := 16) hc (by decide)

/-- Everything one `drySensor` call appends to the log. -/
theorem drySensor_log (hw : Hardware σ) (w : World σ) :
    (drySensor hw w).log = w.log ++
      ([Event.write [HDC1000_CONFIG], Event.delay 0, Event.read 2]
        ++ [Event.write [HDC1000_CONFIG, 0xB0, 0x00], Event.delay 15, Event.delay 15]
        ++ (List.replicate 1000 dryPassEvents).flatten
        ++ [Event.write [HDC1000_CONFIG, ((read16 hw 0x2 0 w).1 ||| 0x8000) / 256,
              ((read16 hw 0x2 0 w).1 ||| 0x8000) % 256], Event.delay 15, Event.delay 15]) := by
  have hlt := or_rst_lt _ (read16_lt hw 0x2 0 w)
  have hm : ((read16 hw 0x2 0 w).1 ||| HDC1000_CONFIG_RST) % 65536
      = (read16 hw 0x2 0 w).1 ||| HDC1000_CONFIG_RST := Nat.mod_eq_of_lt hlt
  have hr : HDC1000_CONFIG_RST = 0x8000 := by decide
  have hn : (HDC1000_CONFIG_RST ||| HDC1000_CONFIG_HEAT ||| HDC1000_CONFIG_MODE |||
      HDC1000_CONFIG_TRES_14 ||| HDC1000_CONFIG_HRES_14) % 65536 = 0xB000 := by decide
  simp only [drySensor, delay_log, writeConfig_log, drySensorLoop_log, read16_log, hn, hm]
  rw [hr]
  generalize (List.replicate 1000 dryPassEvents).flatten = passes
  simp [HDC1000_CONFIG]

/-- Milliseconds of delay requested by the events of one `drySensor` call. -/
theorem delayTotal_drySensor_events (hw : Hardware σ) (w : World σ) :
    delayTotal ((drySensor hw w).log.drop w.log.length) = 21060 := by
  rw [drySensor_log, List.drop_left, delayTotal_append, delayTotal_append, delayTotal_append,
    delayTotal_dryPasses]
  simp [delayTotal, delayMs]

/-! ## Conversions -/

/-- C1: for every value `v` that the combined 4-byte read of register 0x00 returns,
`readTemperature` returns the finite `float` whose value is exactly the rational
`((v >> 16) / 65536) * 165 - 40` (no single-precision step rounds), and two reads that
agree on the upper 16 bits give the same temperature whatever their lower 16 bits. -/
theorem readTemperature_exact (hw : Hardware σ) (w : World σ) :
    (readTemperature hw w).1
        = some ((((read32 hw HDC1000_TEMP 20 w).1 >>> 16 : ℕ) : ℚ) / 65536 * 165 - 40)
    ∧ ∀ (hw' : Hardware σ) (w' : World σ),
        (read32 hw' HDC1000_TEMP 20 w').1 >>> 16 = (read32 hw HDC1000_TEMP 20 w).1 >>> 16 →
        (readTemperature hw' w').1 = (readTemperature hw w).1 := by
  refine ⟨readTemperature_val hw w, ?_⟩
  intro hw' w' h
  rw [readTemperature_val, readTemperature_val, h]

theorem readTemperature_exact_witness :
    (readTemperature mockHardware (mockWith 0x66 0x64 0x11 0x22)).1
        = some (((0x6664 : ℕ) : ℚ) / 65536 * 165 - 40)
    ∧ (read32 mockHardware HDC1000_TEMP 20 (mockWith 0x66 0x64 0xFF 0xFF)).1 >>> 16
        = (read32 mockHardware HDC1000_TEMP 20 (mockWith 0x66 0x64 0x11 0x22)).1 >>> 16
    ∧ (readTemperature mockHardware (mockWith 0x66 0x64 0xFF 0xFF)).1
        = (readTemperature mockHardware (mockWith 0x66 0x64 0x11 0x22)).1 :=
  ⟨by
    have h := (readTemperature_exact mockHardware (mockWith 0x66 0x64 0x11 0x22)).1
    rw [read32_mockWith] at h
    exact h,
   by rw [read32_mockWith, read32_mockWith]; decide,
   (readTemperature_exact mockHardware (mockWith 0x66 0x64 0x11 0x22)).2 mockHardware
     (mockWith 0x66 0x64 0xFF 0xFF) (by rw [read32_mockWith, read32_mockWith]; decide)⟩

/-- C2: for every value `v` that the combined 4-byte read of register 0x00 returns,
`readHumidity` returns the finite `float` whose value is exactly the rational
`((v & 0xFFFF) / 65536) * 100`, and two reads that agree on the lower 16 bits give the
same humidity whatever their upper 16 bits. -/
theorem readHumidity_exact (hw : Hardware σ) (w : World σ) :
    (readHumidity hw w).1
        = some ((((read32 hw HDC1000_TEMP 20 w).1 &&& 0xFFFF : ℕ) : ℚ) / 65536 * 100)
    ∧ ∀ (hw' : Hardware σ) (w' : World σ),
        (read32 hw' HDC1000_TEMP 20 w').1 &&& 0xFFFF = (read32 hw HDC1000_TEMP 20 w).1 &&& 0xFFFF →
        (readHumidity hw' w').1 = (readHumidity hw w).1 := by
  refine ⟨readHumidity_val hw w, ?_⟩
  intro hw' w' h
  rw [readHumidity_val, readHumidity_val, h]

theorem readHumidity_exact_witness :
    (readHumidity mockHardware (mockWith 0x66 0x64 0x4C 0xCD)).1
        = some (((0x4CCD : ℕ) : ℚ) / 65536 * 100)
    ∧ (read32 mockHardware HDC1000_TEMP 20 (mockWith 0x00 0x01 0x4C 0xCD)).1 &&& 0xFFFF
        = (read32 mockHardware HDC1000_TEMP 20 (mockWith 0x66 0x64 0x4C 0xCD)).1 &&& 0xFFFF
    ∧ (readHumidity mockHardware (mockWith 0x00 0x01 0x4C 0xCD)).1
        = (readHumidity mockHardware (mockWith 0x66 0x64 0x4C 0xCD)).1 :=
  ⟨by
    have h := (readHumidity_exact mockHardware (mockWith 0x66 0x64 0x4C 0xCD)).1
    rw [read32_mockWith] at h
    exact h,
   by rw [read32_mockWith, read32_mockWith]; decide,
   (readHumidity_exact mockHardware (mockWith 0x66 0x64 0x4C 0xCD)).2 mockHardware
     (mockWith 0x00 0x01 0x4C 0xCD) (by rw [read32_mockWith, read32_mockWith]; decide)⟩

/-- C10: whatever four bytes the transport returns, `readTemperature` returns a finite
`t` with `-40 ≤ t < 125` and `readHumidity` a finite `h` with `0 ≤ h < 100`, and each is
monotonically non-decreasing in its 16-bit raw half. -/
theorem reading_ranges (hw : Hardware σ) (w : World σ) :
    (∃ t, (readTemperature hw w).1 = some t ∧ -40 ≤ t ∧ t < 125)
    ∧ (∃ h, (readHumidity hw w).1 = some h ∧ 0 ≤ h ∧ h < 100)
    ∧ (∀ (hw' : Hardware σ) (w' : World σ),
        (read32 hw HDC1000_TEMP 20 w).1 >>> 16 ≤ (read32 hw' HDC1000_TEMP 20 w').1 >>> 16 →
        ∃ t t', (readTemperature hw w).1 = some t ∧ (readTemperature hw' w').1 = some t'
          ∧ t ≤ t')
    ∧ (∀ (hw' : Hardware σ) (w' : World σ),
        (read32 hw HDC1000_TEMP 20 w).1 &&& 0xFFFF ≤ (read32 hw' HDC1000_TEMP 20 w').1 &&& 0xFFFF →
        ∃ h h', (readHumidity hw w).1 = some h ∧ (readHumidity hw' w').1 = some h'
          ∧ h ≤ h') := by
  have hlt := read32_lt hw HDC1000_TEMP 20 w
  have hu : (read32 hw HDC1000_TEMP 20 w).1 >>> 16 < 65536 := by
    rw [Nat.shiftRight_eq_div_pow]; omega
  have hl : (read32 hw HDC1000_TEMP 20 w).1 &&& 0xFFFF < 65536 := by
    have := Nat.and_pow_two_sub_one_eq_mod (read32 hw HDC1000_TEMP 20 w).1 16
    norm_num at this
    rw [this]; omega
  refine ⟨⟨_, readTemperature_val hw w, ?_, ?_⟩, ⟨_, readHumidity_val hw w, ?_, ?_⟩, ?_, ?_⟩
  · have : (0 : ℚ) ≤ (((read32 hw HDC1000_TEMP 20 w).1 >>> 16 : ℕ) : ℚ) := by positivity
    linarith
  · have : (((read32 hw HDC1000_TEMP 20 w).1 >>> 16 : ℕ) : ℚ) < 65536 := by exact_mod_cast hu
    linarith
  · positivity
  · have : (((read32 hw HDC1000_TEMP 20 w).1 &&& 0xFFFF : ℕ) : ℚ) < 65536 := by exact_mod_cast hl
    linarith
  · intro hw' w' h
    refine ⟨_, _, readTemperature_val hw w, readTemperature_val hw' w', ?_⟩
    have : (((read32 hw HDC1000_TEMP 20 w).1 >>> 16 : ℕ) : ℚ)
        ≤ (((read32 hw' HDC1000_TEMP 20 w').1 >>> 16 : ℕ) : ℚ) := by exact_mod_cast h
    linarith
  · intro hw' w' h
    refine ⟨_, _, readHumidity_val hw w, readHumidity_val hw' w', ?_⟩
    have : (((read32 hw HDC1000_TEMP 20 w).1 &&& 0xFFFF : ℕ) : ℚ)
        ≤ (((read32 hw' HDC1000_TEMP 20 w').1 &&& 0xFFFF : ℕ) : ℚ) := by exact_mod_cast h
    linarith

theorem reading_ranges_witness :
    (∃ t, (readTemperature mockHardware (mockWith 0 0 0 0)).1 = some t ∧ -40 ≤ t ∧ t < 125)
    ∧ (∃ h, (readHumidity mockHardware (mockWith 0 0 0 0)).1 = some h ∧ 0 ≤ h ∧ h < 100)
    ∧ (read32 mockHardware HDC1000_TEMP 20 (mockWith 0 0 0 0)).1 >>> 16
        ≤ (read32 mockHardware HDC1000_TEMP 20 (mockWith 0xFF 0xFF 0xFF 0xFF)).1 >>> 16
    ∧ (∃ t t', (readTemperature mockHardware (mockWith 0 0 0 0)).1 = some t
        ∧ (readTemperature mockHardware (mockWith 0xFF 0xFF 0xFF 0xFF)).1 = some t' ∧ t ≤ t')
    ∧ (read32 mockHardware HDC1000_TEMP 20 (mockWith 0 0 0 0)).1 &&& 0xFFFF
        ≤ (read32 mockHardware HDC1000_TEMP 20 (mockWith 0xFF 0xFF 0xFF 0xFF)).1 &&& 0xFFFF
    ∧ (∃ h h', (readHumidity mockHardware (mockWith 0 0 0 0)).1 = some h
        ∧ (readHumidity mockHardware (mockWith 0xFF 0xFF 0xFF 0xFF)).1 = some h' ∧ h ≤ h') :=
  ⟨(reading_ranges mockHardware (mockWith 0 0 0 0)).1,
   (reading_ranges mockHardware (mockWith 0 0 0 0)).2.1,
   by rw [read32_mockWith, read32_mockWith]; decide,
   (reading_ranges mockHardware (mockWith 0 0 0 0)).2.2.1 mockHardware
     (mockWith 0xFF 0xFF 0xFF 0xFF) (by rw [read32_mockWith, read32_mockWith]; decide),
   by rw [read32_mockWith, read32_mockWith]; decide,
   (reading_ranges mockHardware (mockWith 0 0 0 0)).2.2.2 mockHardware
     (mockWith 0xFF 0xFF 0xFF 0xFF) (by rw [read32_mockWith, read32_mockWith]; decide)⟩

/-- C7, as the specification states it, fails: when the combined read returns
`0x60008000`, no value returned by `readTemperature` rounds to 23.67. -/
theorem example_temperature_not_23_67 :
    (read32 mockHardware HDC1000_TEMP 20 (mockWith 0x60 0x00 0x80 0x00)).1 = 0x60008000
    ∧ (readTemperature mockHardware (mockWith 0x60 0x00 0x80 0x00)).1 = some 21.875
    ∧ ¬ ∃ t, (readTemperature mockHardware (mockWith 0x60 0x00 0x80 0x00)).1 = some t
          ∧ roundsToTwoDecimals t 23.67 := by
  have hv : (read32 mockHardware HDC1000_TEMP 20 (mockWith 0x60 0x00 0x80 0x00)).1
      = 0x60008000 := by rw [read32_mockWith]; decide
  have e : (0x60008000 : ℕ) >>> 16 = 0x6000 := by decide
  refine ⟨hv, by rw [readTemperature_val, hv, e]; norm_num, ?_⟩
  rintro ⟨t, ht, hr⟩
  rw [readTemperature_val, hv] at ht
  have e : (0x60008000 : ℕ) >>> 16 = 0x6000 := by decide
  rw [e] at ht
  have ht' := Option.some.inj ht
  rw [← ht'] at hr
  unfold roundsToTwoDecimals at hr
  norm_num [abs_le] at hr

/-- C7 (amended): when the combined 4-byte read returns `0x60008000`, `readTemperature`
returns `(0x6000/65536)*165-40`, which is exactly 21.875 (21.88 to two decimals), and
`readHumidity` returns `(0x8000/65536)*100`, which is exactly 50. -/
theorem example_reading (hw : Hardware σ) (w : World σ)
    (hv : (read32 hw HDC1000_TEMP 20 w).1 = 0x60008000) :
    (readTemperature hw w).1 = some ((0x6000 : ℚ) / 65536 * 165 - 40)
    ∧ (0x6000 : ℚ) / 65536 * 165 - 40 = 21.875
    ∧ roundsToTwoDecimals ((0x6000 : ℚ) / 65536 * 165 - 40) 21.88
    ∧ (readHumidity hw w).1 = some ((0x8000 : ℚ) / 65536 * 100)
    ∧ (0x8000 : ℚ) / 65536 * 100 = 50 := by
  have e1 : (0x60008000 : ℕ) >>> 16 = 0x6000 := by decide
  have e2 : (0x60008000 : ℕ) &&& 0xFFFF = 0x8000 := by decide
  refine ⟨?_, by norm_num, ?_, ?_, by norm_num⟩
  · rw [readTemperature_val, hv, e1]; norm_num
  · unfold roundsToTwoDecimals; norm_num [abs_le]
  · rw [readHumidity_val, hv, e2]; norm_num

theorem example_reading_witness :
    (read32 mockHardware HDC1000_TEMP 20 (mockWith 0x60 0x00 0x80 0x00)).1 = 0x60008000
    ∧ (readTemperature mockHardware (mockWith 0x60 0x00 0x80 0x00)).1 = some 21.875
    ∧ (readHumidity mockHardware (mockWith 0x60 0x00 0x80 0x00)).1 = some 50 := by
  have hv : (read32 mockHardware HDC1000_TEMP 20 (mockWith 0x60 0x00 0x80 0x00)).1
      = 0x60008000 := by rw [read32_mockWith]; decide
  have h := example_reading mockHardware (mockWith 0x60 0x00 0x80 0x00) hv
  refine ⟨hv, ?_, ?_⟩
  · rw [h.1, h.2.1]
  · rw [h.2.2.2.1, h.2.2.2.2]

/-! ## Identity check, reset, drying -/

/-- C3: on every simulated transport `begin` returns true exactly when the transport
opens, the 16-bit read of register 0xFE gives 0x5449 and the 16-bit read of register
0xFF gives 0x1000 or 0x1050; in every other case it returns false. -/
theorem begin_true_iff (hw : Hardware σ) (addr : Nat) (w : World σ) :
    ((begin hw addr w).1 = true ↔
      opensOk hw addr w = true ∧ (manufacturerIdRead hw addr w).1 = 0x5449
        ∧ ((deviceIdRead hw addr w).1 = 0x1000 ∨ (deviceIdRead hw addr w).1 = 0x1050))
    ∧ ((begin hw addr w).1 = false ↔
      opensOk hw addr w = false ∨ (manufacturerIdRead hw addr w).1 ≠ 0x5449
        ∨ ((deviceIdRead hw addr w).1 ≠ 0x1000 ∧ (deviceIdRead hw addr w).1 ≠ 0x1050)) := by
  have key : (begin hw addr w).1 = true ↔
      opensOk hw addr w = true ∧ (manufacturerIdRead hw addr w).1 = 0x5449
        ∧ ((deviceIdRead hw addr w).1 = 0x1000 ∨ (deviceIdRead hw addr w).1 = 0x1050) := by
    simp only [begin, opensOk, deviceIdRead, manufacturerIdRead]
    generalize i2cBegin hw (addr % 256) w = o
    generalize read16 hw HDC1000_MANUFID 0 (reset hw o.2) = m
    generalize read16 hw HDC1000_DEVICEID 0 m.2 = d
    cases ho : o.1
    · simp
    · by_cases hm : m.1 = 0x5449
      · by_cases h1 : d.1 = 0x1000
        · simp [hm, h1]
        · by_cases h2 : d.1 = 0x1050
          · simp [hm, h2]
          · simp [hm, h1, h2]
      · simp [hm]
  refine ⟨key, ?_⟩
  have hb : (begin hw addr w).1 = false ↔ ¬ (begin hw addr w).1 = true := by
    cases (begin hw addr w).1 <;> simp
  rw [hb, key]
  generalize opensOk hw addr w = a
  generalize (manufacturerIdRead hw addr w).1 = m
  generalize (deviceIdRead hw addr w).1 = d
  cases a
  · simp
  · simp only [true_and, Bool.true_eq_false, false_or, ne_eq]
    tauto

theorem begin_true_iff_witness :
    (begin mockHardware HDC1000_I2CADDR (mockSensor 0x1050)).1 = true
    ∧ (begin mockHardware HDC1000_I2CADDR (mockSensor 0x1234)).1 = false :=
  ⟨(begin_true_iff mockHardware HDC1000_I2CADDR (mockSensor 0x1050)).1.mpr
     ⟨by decide, by decide, Or.inr (by decide)⟩,
   (begin_true_iff mockHardware HDC1000_I2CADDR (mockSensor 0x1234)).2.mpr
     (Or.inr (Or.inr ⟨by decide, by decide⟩))⟩

/-- C4: `reset` appends exactly one write transaction, the configuration write of
the word 0x9000 (followed by the 15 ms settling delay), and 0x9000 is the value of
`HDC1000_CONFIG_RST | HDC1000_CONFIG_MODE | HDC1000_CONFIG_TRES_14 | HDC1000_CONFIG_HRES_14`. -/
theorem reset_writes_0x9000 (hw : Hardware σ) (w : World σ) :
    (reset hw w).log = w.log ++ [Event.write [HDC1000_CONFIG, 0x90, 0x00], Event.delay 15]
    ∧ writesOf ((reset hw w).log.drop w.log.length) = [[HDC1000_CONFIG, 0x90, 0x00]]
    ∧ configWrites ((reset hw w).log.drop w.log.length) = [0x9000]
    ∧ HDC1000_CONFIG_RST ||| HDC1000_CONFIG_MODE ||| HDC1000_CONFIG_TRES_14
        ||| HDC1000_CONFIG_HRES_14 = 0x9000 := by
  have hc : (HDC1000_CONFIG_RST ||| HDC1000_CONFIG_MODE ||| HDC1000_CONFIG_TRES_14
      ||| HDC1000_CONFIG_HRES_14) % 65536 = 0x9000 := by decide
  have hlog : (reset hw w).log
      = w.log ++ [Event.write [HDC1000_CONFIG, 0x90, 0x00], Event.delay 15] := by
    simp only [reset, writeConfig_log, hc]
    rfl
  refine ⟨hlog, ?_, ?_, by decide⟩
  · rw [hlog, List.drop_left]; rfl
  · rw [hlog, List.drop_left]; rfl

/-- C5: with `c` the word that `read16(0x2)` returns at the start, one `drySensor` call
appends to the log: that read, the configuration write of the heater word 0xB000, two
15 ms waits, 1000 passes each made of a four-byte read of register 0x00 (address write,
20 ms wait, read) and a 1 ms wait, then the configuration write of `c | 0x8000` and two
15 ms waits.  The configuration writes are exactly 0xB000 then `c | 0x8000`, the
four-byte reads number exactly 1000, and `c | 0x8000` has bit 15 set and every other
bit as in `c`. -/
theorem drySensor_trace (hw : Hardware σ) (w : World σ) :
    (drySensor hw w).log = w.log ++
      ([Event.write [HDC1000_CONFIG], Event.delay 0, Event.read 2]
        ++ [Event.write [HDC1000_CONFIG, 0xB0, 0x00], Event.delay 15, Event.delay 15]
        ++ (List.replicate 1000 dryPassEvents).flatten
        ++ [Event.write [HDC1000_CONFIG, ((read16 hw 0x2 0 w).1 ||| 0x8000) / 256,
              ((read16 hw 0x2 0 w).1 ||| 0x8000) % 256], Event.delay 15, Event.delay 15])
    ∧ configWrites ((drySensor hw w).log.drop w.log.length)
        = [0xB000, (read16 hw 0x2 0 w).1 ||| 0x8000]
    ∧ readCount 4 ((drySensor hw w).log.drop w.log.length) = 1000
    ∧ HDC1000_CONFIG_RST ||| HDC1000_CONFIG_HEAT ||| HDC1000_CONFIG_MODE
        ||| HDC1000_CONFIG_TRES_14 ||| HDC1000_CONFIG_HRES_14 = 0xB000
    ∧ ∀ i, ((read16 hw 0x2 0 w).1 ||| 0x8000).testBit i
        = (decide (i = 15) || (read16 hw 0x2 0 w).1.testBit i) := by
  refine ⟨drySensor_log hw w, ?_, ?_, by decide, ?_⟩
  · rw [drySensor_log, List.drop_left, configWrites_append, configWrites_append,
      configWrites_append, configWrites_dryPasses]
    simp [configWrites, configWord, HDC1000_CONFIG, Nat.div_add_mod']
  · rw [drySensor_log, List.drop_left, readCount_append, readCount_append,
      readCount_append, readCount_dryPasses]
    simp [readCount, HDC1000_CONFIG]
  · intro i
    have h2 : (0x8000 : ℕ) = 2 ^ 15 := by norm_num
    rw [Nat.testBit_or, h2, Nat.testBit_two_pow, Bool.or_comm]
    by_cases h : i = 15
    · simp [h]
    · have h' : ¬ (15 = i) := fun e => h e.symm
      simp [h, h']

/-- C6: over the mock register-file transport, for every 16-bit word `c`,
`writeConfig(c)` sends register address 0x02, then the high byte, then the low byte
of `c`, and a following `read16(0x02)` returns `c`. -/
theorem config_roundtrip (w : World MockState) (c delayms : Nat) (hc : c < 65536) :
    (writeConfig mockHardware c w).log
        = w.log ++ [Event.write [HDC1000_CONFIG, c / 256, c % 256], Event.delay 15]
    ∧ (read16 mockHardware HDC1000_CONFIG delayms (writeConfig mockHardware c w)).1 = c := by
  constructor
  · rw [writeConfig_log, Nat.mod_eq_of_lt hc]; rfl
  · rw [read16_val]
    have e : c % 65536 = c := Nat.mod_eq_of_lt hc
    simp [response, i2cRead, i2cWrite, delay, mockHardware, writeConfig, busRegisterWrite16,
      byteAt, HDC1000_CONFIG, e]
    omega

theorem config_roundtrip_witness :
    (0x9000 : Nat) < 65536
    ∧ (read16 mockHardware HDC1000_CONFIG 0 (writeConfig mockHardware 0x9000 mockInit)).1
        = 0x9000 :=
  ⟨by norm_num, (config_roundtrip mockInit 0x9000 0 (by norm_num)).2⟩

/-- C9, as the specification states it, fails: on the mock transport the delays
requested during one `drySensor` call add up to more than 1060 ms. -/
theorem drySensor_delay_exceeds_1060 :
    delayTotal ((drySensor mockHardware mockInit).log.drop mockInit.log.length) = 21060
    ∧ ¬ delayTotal ((drySensor mockHardware mockInit).log.drop mockInit.log.length) ≤ 1060 := by
  rw [delayTotal_drySensor_events]
  decide

/-- C9 (amended): the millisecond arguments of all delays requested during one
`drySensor` call (directly, inside `writeConfig`, inside `read16` and inside `read32`)
add up to exactly 21060 ms, about 21 seconds: 1000 passes of a 20 ms wait inside
`read32` and a 1 ms wait, plus four 15 ms settling waits. -/
theorem drySensor_delay_total (hw : Hardware σ) (w : World σ) :
    delayTotal ((drySensor hw w).log.drop w.log.length) = 21060
    ∧ delayTotal (drySensor hw w).log = delayTotal w.log + (1000 * (20 + 1) + 4 * 15) := by
  refine ⟨delayTotal_drySensor_events hw w, ?_⟩
  have h := delayTotal_drySensor_events hw w
  rw [drySensor_log, List.drop_left] at h
  rw [drySensor_log, delayTotal_append, h]

/-! ## Byte order of the register reads -/

/-- C8: for every register address and response bytes `b0 b1 b2 b3`, `read16` returns
`b0*256 + b1` and `read32` returns `b0*2^24 + b1*2^16 + b2*2^8 + b3`; each writes
exactly one byte, the register address, to the transport before reading; and the upper
16 bits of the `read32` value are `b0 b1`, the lower 16 bits `b2 b3`. -/
theorem read_msb_first (hw : Hardware σ) (w : World σ) (addr delayms b0 b1 b2 b3 : Nat)
    (ha : addr < 256) (h0 : b0 < 256) (h1 : b1 < 256) (h2 : b2 < 256) (h3 : b3 < 256) :
    (response hw 2 addr delayms w = [b0, b1] → (read16 hw addr delayms w).1 = b0 * 256 + b1)
    ∧ (response hw 4 addr delayms w = [b0, b1, b2, b3] →
        (read32 hw addr delayms w).1 = b0 * 2 ^ 24 + b1 * 2 ^ 16 + b2 * 2 ^ 8 + b3
        ∧ (read32 hw addr delayms w).1 >>> 16 = b0 * 256 + b1
        ∧ (read32 hw addr delayms w).1 &&& 0xFFFF = b2 * 256 + b3)
    ∧ (read16 hw addr delayms w).2.log
        = w.log ++ [Event.write [addr], Event.delay (delayms % 256), Event.read 2]
    ∧ (read32 hw addr delayms w).2.log
        = w.log ++ [Event.write [addr], Event.delay (delayms % 256), Event.read 4]
    ∧ writesOf ((read16 hw addr delayms w).2.log.drop w.log.length) = [[addr]]
    ∧ writesOf ((read32 hw addr delayms w).2.log.drop w.log.length) = [[addr]] := by
  have ea : addr % 256 = addr := Nat.mod_eq_of_lt ha
  refine ⟨?_, ?_, ?_, ?_, ?_, ?_⟩
  · intro hr
    rw [read16_val, hr]
    simp [byteAt, Nat.mod_eq_of_lt h0, Nat.mod_eq_of_lt h1]
  · intro hr
    have hv : (read32 hw addr delayms w).1 = b0 * 2 ^ 24 + b1 * 2 ^ 16 + b2 * 2 ^ 8 + b3 := by
      rw [read32_val, hr]
      simp [byteAt, Nat.mod_eq_of_lt h0, Nat.mod_eq_of_lt h1, Nat.mod_eq_of_lt h2,
        Nat.mod_eq_of_lt h3]
    refine ⟨hv, ?_, ?_⟩
    · rw [hv, Nat.shiftRight_eq_div_pow]; omega
    · have := Nat.and_pow_two_sub_one_eq_mod (read32 hw addr delayms w).1 16
      norm_num at this
      rw [this, hv]; omega
  · rw [read16_log, ea]
  · rw [read32_log, ea]
  · rw [read16_log, ea, List.drop_left]; rfl
  · rw [read32_log, ea, List.drop_left]; rfl

theorem read_msb_first_witness :
    response mockHardware 2 HDC1000_TEMP 20 (mockWith 0x12 0x34 0x56 0x78) = [0x12, 0x34]
    ∧ (read16 mockHardware HDC1000_TEMP 20 (mockWith 0x12 0x34 0x56 0x78)).1 = 0x1234
    ∧ response mockHardware 4 HDC1000_TEMP 20 (mockWith 0x12 0x34 0x56 0x78)
        = [0x12, 0x34, 0x56, 0x78]
    ∧ (read32 mockHardware HDC1000_TEMP 20 (mockWith 0x12 0x34 0x56 0x78)).1 = 0x12345678
    ∧ (read32 mockHardware HDC1000_TEMP 20 (mockWith 0x12 0x34 0x56 0x78)).1 >>> 16 = 0x1234
    ∧ (read32 mockHardware HDC1000_TEMP 20 (mockWith 0x12 0x34 0x56 0x78)).1 &&& 0xFFFF
        = 0x5678 :=
  have h := read_msb_first mockHardware (mockWith 0x12 0x34 0x56 0x78) HDC1000_TEMP 20
    0x12 0x34 0x56 0x78 (by decide) (by decide) (by decide) (by decide) (by decide)
  ⟨rfl, h.1 rfl, rfl, (h.2.1 rfl).1, (h.2.1 rfl).2.1, (h.2.1 rfl).2.2⟩

end HDC1000
